import Mathlib

/-!
# Verification of the sonicradio player control subsystem

A shallow embedding of the player backends of the sonicradio repository:

* `MpvSocket` (src/player/mpv_socket.go): the structured IPC backend —
  the socket-file wait loop of `NewMPVSocket`, the response-correlation
  scan of `ipcRequest`, and the `Play` / `SetVolume` / `Close` command
  sequences (the IPC channel is abstracted as an oracle from command
  strings to results, and side effects are reified as event traces).
* `FFPlay` (src/player/ffplay/ffplay.go): the stderr-scraping backend —
  its mutable state (`url`, `playing` process with its stderr buffer,
  playback-time clock, stored volume) becomes explicit state passing;
  wall-clock instants are passed as explicit `Int` nanosecond timestamps,
  with `0` encoding Go's zero `time.Time` (`IsZero`).

Go byte strings scanned by the ffplay backend are modelled as `List Char`;
`strings.Index`, `strings.LastIndex` and `strings.TrimSpace` are embedded
as `firstIdx`, `lastIdx` and `trimSpace` below.
-/

namespace SonicRadio

/-! ## String-scanning primitives (Go `strings` package operations) -/

/-- Go `strings.Index(s, pat)`: index of the first occurrence of `pat`
in `s`, `none` standing for Go's `-1`. -/
def firstIdx (pat : List Char) : List Char → Option Nat
  | [] => if pat.isEmpty then some 0 else none
  | c :: rest =>
    if pat.isPrefixOf (c :: rest) then some 0
    else (firstIdx pat rest).map (· + 1)

/-- Go `strings.LastIndex(s, pat)`: index of the last occurrence of `pat`
in `s`, `none` standing for Go's `-1`. -/
def lastIdx (pat s : List Char) : Option Nat :=
  ((List.range (s.length + 1)).filter (fun i => pat.isPrefixOf (s.drop i))).getLast?

/-- Go `strings.TrimSpace`: drop leading and trailing whitespace. -/
def trimSpace (s : List Char) : List Char :=
  ((s.dropWhile Char.isWhitespace).reverse.dropWhile Char.isWhitespace).reverse

/-- The `nlIx := strings.Index(x, "\n"); if nlIx >= 0 { x = x[:nlIx] }`
idiom of `FFPlay.Metadata`: keep only the text before the first newline. -/
def cutAtNewline (s : List Char) : List Char :=
  match firstIdx [Char.ofNat 10] s with
  | some i => s.take i
  | none => s

/-! ## The shared `Metadata` record (player/model) -/

/-- The metadata snapshot returned by either backend: a title, an optional
playback time in whole seconds, and an optional stream error message. -/
structure Metadata where
  Title : List Char := []
  PlaybackTimeSec : Option Int := none
  Err : Option (List Char) := none
  deriving DecidableEq, Repr

/-! ## FFPlay: playback clock (src/player/ffplay/ffplay.go, play-time methods) -/

/-- Nanoseconds per second: Go `time.Duration` arithmetic is in ns. -/
def nsPerSec : Int := 1000000000

/-- The two clock fields of `FFPlay`: `playedTime *time.Duration`
(accumulated ns, `none` for the nil pointer) and `playStartTime time.Time`
(ns timestamp, `0` encoding the zero `time.Time`). -/
structure PlayTimeState where
  playedTime : Option Int := none
  playStartTime : Int := 0
  deriving DecidableEq, Repr

/-- `FFPlay.resetPlayTime`: clear the accumulator, start the timestamp now. -/
def resetPlayTime (now : Int) (_s : PlayTimeState) : PlayTimeState :=
  { playedTime := none, playStartTime := now }

/-- `FFPlay.pausePlayTime`: add `now - playStartTime` into the accumulator
(initialising it when nil) and clear the timestamp. -/
def pausePlayTime (now : Int) (s : PlayTimeState) : PlayTimeState :=
  let d := now - s.playStartTime
  match s.playedTime with
  | none => { playedTime := some d, playStartTime := 0 }
  | some p => { playedTime := some (p + d), playStartTime := 0 }

/-- `FFPlay.resumePlayTime`: set the timestamp to now, accumulator untouched. -/
def resumePlayTime (now : Int) (s : PlayTimeState) : PlayTimeState :=
  { s with playStartTime := now }

/-- `FFPlay.getPlayTime`: accumulator plus the running interval (when the
timestamp is non-zero), truncated to whole seconds (`int64(d.Seconds())`
truncates toward zero, hence `Int.tdiv`). -/
def getPlayTime (now : Int) (s : PlayTimeState) : Int :=
  let d1 : Int := match s.playedTime with | none => 0 | some p => p
  let d2 : Int := if s.playStartTime = 0 then 0 else now - s.playStartTime
  Int.tdiv (d1 + d2) nsPerSec

/-! ## FFPlay: stderr scraping (`FFPlay.Metadata`) -/

/-- The fatal-error substrings `errs` searched for in ffplay's stderr. -/
def ffErrs : List (List Char) :=
  [("File Not Found").toList,
   ("Failed to resolve").toList,
   ("Invalid data found when processing input").toList]

/-- The now-playing marker `titleMsg`. -/
def ffTitleMsg : List Char := ("Metadata update for StreamTitle:").toList

/-- The error loop of `FFPlay.Metadata`: the first entry of `errList`
occurring in `output` yields its error line (from the occurrence up to the
next newline, trimmed). -/
def findErr (output : List Char) : List (List Char) → Option (List Char)
  | [] => none
  | e :: rest =>
    match firstIdx e output with
    | none => findErr output rest
    | some i => some (trimSpace (cutAtNewline (output.drop i)))

/-- The title branch of `FFPlay.Metadata`: text after the last occurrence
of the marker, up to the next newline, trimmed; `""` when the marker is
absent. -/
def extractTitle (output : List Char) : List Char :=
  match lastIdx ffTitleMsg output with
  | none => []
  | some i => trimSpace (cutAtNewline (output.drop (i + ffTitleMsg.length)))

/-- The buffer-scanning core of `FFPlay.Metadata`, given the accumulated
stderr `output` and the already-computed play time. -/
def ffMetadataCore (output : List Char) (playTime : Option Int) : Metadata :=
  match findErr output ffErrs with
  | some msg => { Err := some msg, PlaybackTimeSec := playTime }
  | none => { Title := extractTitle output, PlaybackTimeSec := playTime }

/-! ## FFPlay: state machine (src/player/ffplay/ffplay.go) -/

/-- Process-level side effects of the ffplay backend: starting the engine
process (with the URL and volume put on its argument vector) or killing it. -/
inductive FFEvent
  | spawn (url : List Char) (vol : Int)
  | kill
  deriving DecidableEq, Repr

/-- The mutable fields of `FFPlay`: the last URL, the running process
(carrying its accumulated stderr buffer; `none` for the nil handle), the
playback clock and the stored volume. -/
structure FFPlayState where
  url : List Char := []
  playing : Option (List Char) := none
  pt : PlayTimeState := {}
  volume : Int := 0
  deriving DecidableEq, Repr

/-- `NewFFPlay` returns `&FFPlay{}`: all fields at their zero values. -/
def ffInitial : FFPlayState := {}

/-- Environment outcomes for the fallible process operations: the error (if
any) from `exec.Command`/`cmd.Start`, and from `killProcess`. -/
structure FFEnv where
  spawnErr : Option (List Char) := none
  killErr : Option (List Char) := none
  deriving DecidableEq, Repr

namespace FFPlay

/-- `FFPlay.stop`: nothing to do when no process is playing; otherwise clear
the handle and kill the process. -/
def stop (env : FFEnv) (s : FFPlayState) : FFPlayState × List FFEvent × Option (List Char) :=
  match s.playing with
  | none => (s, [], none)
  | some _ => ({ s with playing := none }, [FFEvent.kill], env.killErr)

/-- `FFPlay.Stop` delegates to `stop`. -/
def Stop (env : FFEnv) (s : FFPlayState) : FFPlayState × List FFEvent × Option (List Char) :=
  stop env s

/-- The lower-case `FFPlay.play`: stop any current process, then start a new
engine process on `url` with the stored volume; on success the handle holds a
fresh (empty) stderr buffer and the URL is recorded. -/
def playLower (env : FFEnv) (url : List Char) (s : FFPlayState) :
    FFPlayState × List FFEvent × Option (List Char) :=
  match stop env s with
  | (s1, ev1, some e) => (s1, ev1, some e)
  | (s1, ev1, none) =>
    match env.spawnErr with
    | some e => (s1, ev1, some e)
    | none =>
      ({ s1 with playing := some [], url := url },
       ev1 ++ [FFEvent.spawn url s1.volume], none)

/-- `FFPlay.Play`: the lower-case `play`, then `resetPlayTime` on success. -/
def Play (env : FFEnv) (now : Int) (url : List Char) (s : FFPlayState) :
    FFPlayState × List FFEvent × Option (List Char) :=
  match playLower env url s with
  | (s1, ev, none) => ({ s1 with pt := resetPlayTime now s1.pt }, ev, none)
  | (s1, ev, some e) => (s1, ev, some e)

/-- `FFPlay.Pause`: pausing stops the process (freezing the clock on
success); unpausing relaunches the last URL (resuming the clock on success)
or does nothing at all when no URL was ever played. -/
def Pause (env : FFEnv) (now : Int) (value : Bool) (s : FFPlayState) :
    FFPlayState × List FFEvent × Option (List Char) :=
  if value then
    match stop env s with
    | (s1, ev, none) => ({ s1 with pt := pausePlayTime now s1.pt }, ev, none)
    | (s1, ev, some e) => (s1, ev, some e)
  else if s.url ≠ [] then
    match playLower env s.url s with
    | (s1, ev, none) => ({ s1 with pt := resumePlayTime now s1.pt }, ev, none)
    | (s1, ev, some e) => (s1, ev, some e)
  else (s, [], none)

/-- `FFPlay.SetVolume`: the value is stored only when no process is playing;
the (possibly old) stored volume is returned, never an error. -/
def SetVolume (value : Int) (s : FFPlayState) : FFPlayState × Int :=
  let s1 := if s.playing.isNone then { s with volume := value } else s
  (s1, s1.volume)

/-- `FFPlay.Metadata`: nil when no process is running; otherwise scan the
accumulated stderr buffer, attaching the playback time. -/
def Metadata (now : Int) (s : FFPlayState) : Option SonicRadio.Metadata :=
  match s.playing with
  | none => none
  | some output => some (ffMetadataCore output (some (getPlayTime now s.pt)))

end FFPlay

/-! ## MpvSocket: socket-file wait loop (`NewMPVSocket`) -/

/-- `socketTimeout = time.Second * 2`, in milliseconds. -/
def socketTimeoutMs : Int := 2000

/-- Outcomes of the `NewMPVSocket` wait loop. -/
inductive WaitResult
  | ctxCancel
  | socketFileTimeout
  | connected
  deriving DecidableEq, Repr

/-- The wait loop of `NewMPVSocket` (src/player/mpv_socket.go, the `loop`
for/select). Each iteration runs a `select` with a `default` branch, so the
select never blocks: a case is taken only if it is ready at that instant.
The `time.After(socketTimeout)` operand is re-evaluated on every iteration,
creating a fresh timer whose channel is ready immediately only if the
duration is non-positive; hence the timeout case is guarded by
`socketTimeoutMs ≤ 0`. `ctxDone i` / `fileExists i` give the environment at
iteration `i`; `fuel` bounds the unrolling, `none` meaning the loop is still
running after `fuel` iterations. -/
def newMPVSocketWait (ctxDone fileExists : Nat → Bool) : Nat → Nat → Option WaitResult
  | 0, _ => none
  | fuel + 1, i =>
    if ctxDone i then some WaitResult.ctxCancel
    else if socketTimeoutMs ≤ 0 then some WaitResult.socketFileTimeout
    else if fileExists i then some WaitResult.connected
    else newMPVSocketWait ctxDone fileExists fuel (i + 1)

/-! ## MpvSocket: IPC response correlation (`ipcRequest` read loop) -/

/-- A decoded IPC response line: correlation id, status string, payload. -/
structure IpcResp where
  id : Int
  error : List Char
  data : Option (List Char) := none
  deriving DecidableEq, Repr

/-- A line produced by the scanner: either it fails to decode as JSON, or
it decodes to an `IpcResp`. -/
inductive IpcLine
  | undecodable
  | decoded (r : IpcResp)
  deriving DecidableEq, Repr

/-- `iprRespSuccess = "success"`. -/
def iprRespSuccess : List Char := ("success").toList

/-- Outcome of the `ipcRequest` read loop. -/
inductive IpcResult
  | ok (d : Option (List Char))
  | cmdError (msg : List Char)
  | scanError (msg : List Char)
  | missingResponse
  deriving DecidableEq, Repr

namespace MpvSocket

/-- The read loop of `MpvSocket.ipcRequest`: undecodable lines and lines
with a different correlation id are skipped; a matching line with a
non-success status yields its error message; a matching success line yields
its data. When the lines run out, a scanner error is reported if present,
otherwise the missing-response error. -/
def ipcScan (reqId : Int) (scanErr : Option (List Char)) : List IpcLine → IpcResult
  | [] =>
    match scanErr with
    | some e => IpcResult.scanError e
    | none => IpcResult.missingResponse
  | IpcLine.undecodable :: rest => ipcScan reqId scanErr rest
  | IpcLine.decoded r :: rest =>
    if r.id ≠ reqId then ipcScan reqId scanErr rest
    else if r.error ≠ iprRespSuccess then IpcResult.cmdError r.error
    else IpcResult.ok r.data

end MpvSocket

/-! ## MpvSocket: command sequences (`Play`, `SetVolume`, `Close`)

The IPC channel is abstracted as an oracle `ipc : String → Except (List
Char) (Option (List Char))` giving each command's outcome; each operation
returns the list of commands actually written, in order, together with the
Go function's error result. -/

/-- `ipcCmds[unpause]`. -/
def mpvUnpauseCmd : String := "[\"set_property\", \"pause\", false]"

/-- `ipcCmds[pause]`. -/
def mpvPauseCmd : String := "[\"set_property\", \"pause\", true]"

/-- `fmt.Sprintf(ipcCmds[play], url)`. -/
def mpvPlayCmd (url : String) : String :=
  "[\"loadfile\", \"" ++ url ++ "\",\"replace\"]"

/-- `fmt.Sprintf(ipcCmds[volume], value)`. -/
def mpvVolumeCmd (v : Int) : String :=
  "[\"set_property\", \"volume\", \"" ++ toString v ++ "\"]"

/-- `ipcCmds[quit]`. -/
def mpvQuitCmd : String := "[ \"quit\"]"

/-- The type of the abstracted IPC oracle. -/
def IpcOracle : Type := String → Except (List Char) (Option (List Char))

namespace MpvSocket

/-- `MpvSocket.Pause`: a single `ipcRequest` with the pause or unpause
command. -/
def Pause (ipc : IpcOracle) (value : Bool) : List String × Option (List Char) :=
  let cmd := if value then mpvPauseCmd else mpvUnpauseCmd
  match ipc cmd with
  | Except.error e => ([cmd], some e)
  | Except.ok _ => ([cmd], none)

/-- `MpvSocket.Play`: first `Pause(false)` (the unpause command); only if
that succeeds is the load/replace command issued. -/
def Play (ipc : IpcOracle) (url : String) : List String × Option (List Char) :=
  match Pause ipc false with
  | (cmds, some e) => (cmds, some e)
  | (cmds, none) =>
    match ipc (mpvPlayCmd url) with
    | Except.error e => (cmds ++ [mpvPlayCmd url], some e)
    | Except.ok _ => (cmds ++ [mpvPlayCmd url], none)

/-- `MpvSocket.SetVolume`: clamp to `[0,100]`, send the volume command,
return the clamped value together with any IPC error. -/
def SetVolume (ipc : IpcOracle) (value : Int) : Int × Option (List Char) :=
  let v := if value < 0 then 0 else if value > 100 then 100 else value
  match ipc (mpvVolumeCmd v) with
  | Except.error e => (v, some e)
  | Except.ok _ => (v, none)

/-- Side effects of `MpvSocket.Close`: writing the quit command, closing
the connection. -/
inductive CloseEvent
  | quitCmd
  | connClose
  deriving DecidableEq, Repr

/-- `MpvSocket.Close`: the body issues the quit command; the deferred
closure then closes the connection when one is present, and a close error
replaces the returned error only when the quit command did not itself
fail. `quitErr` is the quit `ipcRequest`'s outcome and `closeErr` the
connection `Close()`'s outcome. -/
def Close (quitErr : Option (List Char)) (connPresent : Bool)
    (closeErr : Option (List Char)) : List CloseEvent × Option (List Char) :=
  if connPresent then
    match closeErr with
    | some ce =>
      ([CloseEvent.quitCmd, CloseEvent.connClose],
       if quitErr = none then some ce else quitErr)
    | none => ([CloseEvent.quitCmd, CloseEvent.connClose], quitErr)
  else ([CloseEvent.quitCmd], quitErr)

end MpvSocket

/-! ## Helper lemmas -/

/-- `firstIdx` finds an occurrence exactly when the pattern is an infix:
the Go `strings.Index(s, pat) != -1` test is substring containment. -/
theorem firstIdx_isSome_iff (pat : List Char) :
    ∀ s : List Char, (firstIdx pat s).isSome ↔ pat <:+: s
  | [] => by
    cases pat <;> simp [firstIdx, List.infix_nil, List.isEmpty]
  | c :: rest => by
    by_cases h : pat.isPrefixOf (c :: rest)
    · have hp : pat <+: c :: rest := List.isPrefixOf_iff_prefix.mp h
      simp [firstIdx, h, hp.isInfix]
    · have h' : ¬ pat <+: c :: rest := fun hp => h (List.isPrefixOf_iff_prefix.mpr hp)
      have ih := firstIdx_isSome_iff pat rest
      simp [firstIdx, h, List.infix_cons_iff, h', ih]

/-- If some entry of the error list occurs in the output, the error loop of
`FFPlay.Metadata` produces a message. -/
theorem findErr_isSome {output : List Char} :
    ∀ {L : List (List Char)} {e : List Char}, e ∈ L → e <:+: output →
      (findErr output L).isSome
  | [], _, h, _ => absurd h (List.not_mem_nil _)
  | a :: rest, e, h, hocc => by
    unfold findErr
    cases hfi : firstIdx a output with
    | some i => simp
    | none =>
      simp only [hfi]
      rcases List.mem_cons.mp h with rfl | hmem
      · have hs := (firstIdx_isSome_iff e output).mpr hocc
        rw [hfi] at hs
        simp at hs
      · exact findErr_isSome hmem hocc

/-- If no entry of the error list occurs in the output, the error loop of
`FFPlay.Metadata` finds nothing. -/
theorem findErr_eq_none {output : List Char} :
    ∀ {L : List (List Char)}, (∀ e ∈ L, ¬ e <:+: output) → findErr output L = none
  | [], _ => rfl
  | a :: rest, h => by
    unfold findErr
    cases hfi : firstIdx a output with
    | some i =>
      exact absurd ((firstIdx_isSome_iff a output).mp (by simp [hfi]))
        (h a (List.mem_cons_self a rest))
    | none =>
      simp only [hfi]
      exact findErr_eq_none (fun e he => h e (List.mem_cons_of_mem a he))

/-- A line the `ipcRequest` read loop skips: one that fails to decode, or
one whose correlation id differs from the request's. -/
def skippable (reqId : Int) : IpcLine → Bool
  | IpcLine.undecodable => true
  | IpcLine.decoded r => r.id ≠ reqId

/-- Skippable lines do not change the outcome of the read loop. -/
theorem ipcScan_skip (reqId : Int) (scanErr : Option (List Char)) (l : IpcLine)
    (rest : List IpcLine) (h : skippable reqId l = true) :
    MpvSocket.ipcScan reqId scanErr (l :: rest) = MpvSocket.ipcScan reqId scanErr rest := by
  cases l with
  | undecodable => rfl
  | decoded r =>
    have hr : r.id ≠ reqId := by simpa [skippable] using h
    simp [MpvSocket.ipcScan, hr]

/-- A stream of nothing but skippable lines, with no scanner error, ends in
the missing-response error. -/
theorem ipcScan_all_skip (reqId : Int) :
    ∀ lines : List IpcLine, (∀ l ∈ lines, skippable reqId l = true) →
      MpvSocket.ipcScan reqId none lines = IpcResult.missingResponse
  | [], _ => rfl
  | l :: rest, h => by
    rw [ipcScan_skip reqId none l rest (h l (List.mem_cons_self l rest))]
    exact ipcScan_all_skip reqId rest (fun x hx => h x (List.mem_cons_of_mem l hx))

/-! ## Claim theorems -/

/-- C4: in the socket backend's `ipcRequest`, every line that fails to
decode or decodes with a correlation id different from the request's id is
skipped and never accepted as the answer; a matching line whose status
field is not the literal success marker makes the call return an error
carrying the engine's message; and if the scanner reaches end-of-stream
with no matching line (e.g. it only ever produces mismatched ids), the
call returns a missing-response error. -/
theorem ipcScan_correlation :
    (∀ (reqId : Int) (scanErr : Option (List Char)) (l : IpcLine) (rest : List IpcLine),
      skippable reqId l = true →
      MpvSocket.ipcScan reqId scanErr (l :: rest) = MpvSocket.ipcScan reqId scanErr rest) ∧
    (∀ (reqId : Int) (scanErr : Option (List Char)) (r : IpcResp) (rest : List IpcLine),
      r.id = reqId → r.error ≠ iprRespSuccess →
      MpvSocket.ipcScan reqId scanErr (IpcLine.decoded r :: rest) = IpcResult.cmdError r.error) ∧
    (∀ (reqId : Int) (lines : List IpcLine),
      (∀ l ∈ lines, skippable reqId l = true) →
      MpvSocket.ipcScan reqId none lines = IpcResult.missingResponse) := by
  refine ⟨ipcScan_skip, ?_, ipcScan_all_skip⟩
  intro reqId scanErr r rest hid herr
  simp [MpvSocket.ipcScan, hid, herr]

/-- Witness for C4: with request id 7, an undecodable line and a
mismatched success line are both skipped and yield the missing-response
outcome, while a matching non-success line yields its error message. -/
theorem ipcScan_correlation_witness :
    MpvSocket.ipcScan 7 none
      [IpcLine.undecodable, IpcLine.decoded ⟨3, iprRespSuccess, none⟩] =
      IpcResult.missingResponse ∧
    MpvSocket.ipcScan 7 none
      [IpcLine.decoded ⟨7, ("bad command").toList, none⟩] =
      IpcResult.cmdError (("bad command").toList) :=
  ⟨ipcScan_correlation.2.2 7 _ (by decide),
   ipcScan_correlation.2.1 7 none ⟨7, ("bad command").toList, none⟩ [] (by decide) (by decide)⟩

/-- C5: for the scrape backend, whenever the accumulated diagnostic buffer
contains any of the known fatal-error substrings, `Metadata()` returns an
error-carrying `Metadata` (with an empty title) built from that error
line, even if the buffer also contains a (possibly later) valid
now-playing title marker; only when no error substring is present is the
title extracted, taken as the text after the last occurrence of the marker
up to the next line break, trimmed. -/
theorem ffMetadata_error_priority (output : List Char) (pt : Option Int) :
    ((∃ e ∈ ffErrs, e <:+: output) →
      (ffMetadataCore output pt).Err.isSome ∧ (ffMetadataCore output pt).Title = []) ∧
    ((∀ e ∈ ffErrs, ¬ e <:+: output) →
      ffMetadataCore output pt =
        { Title := extractTitle output, PlaybackTimeSec := pt, Err := none }) := by
  constructor
  · rintro ⟨e, he, hocc⟩
    have hs := findErr_isSome he hocc
    unfold ffMetadataCore
    cases hf : findErr output ffErrs with
    | none => rw [hf] at hs; simp at hs
    | some msg => simp
  · intro h
    unfold ffMetadataCore
    rw [findErr_eq_none h]

/-- A buffer holding a fatal-error line followed by a valid now-playing
title line. -/
def c5SampleOutput : List Char :=
  ("x File Not Found\nMetadata update for StreamTitle: Song\n").toList

/-- Witness for C5: on a buffer with both an error substring and a later
title marker, the scan reports the error and an empty title. -/
theorem ffMetadata_error_priority_witness :
    (∃ e ∈ ffErrs, e <:+: c5SampleOutput) ∧
    (ffMetadataCore c5SampleOutput (some 0)).Err.isSome ∧
    (ffMetadataCore c5SampleOutput (some 0)).Title = [] :=
  ⟨⟨("File Not Found").toList, by decide, by decide⟩,
   (ffMetadata_error_priority c5SampleOutput (some 0)).1
     ⟨("File Not Found").toList, by decide, by decide⟩⟩

/-- C1 (code divergence): the `NewMPVSocket` wait is claimed to be bounded
— `ErrSocketFileTimeout` after the hard timeout — but the per-iteration
`time.After` timer together with the `default` branch makes the timeout
case unreachable: (1) no environment and no number of iterations ever
produces the timeout result; (2) with the socket file never appearing and
the context never cancelled, the loop is still running after any number of
iterations; (3) cancellation, by contrast, is honoured at once. -/
theorem newMPVSocketWait_never_times_out :
    (∀ (ctxDone fileExists : Nat → Bool) (fuel i : Nat),
      newMPVSocketWait ctxDone fileExists fuel i ≠ some WaitResult.socketFileTimeout) ∧
    (∀ fuel i : Nat,
      newMPVSocketWait (fun _ => false) (fun _ => false) fuel i = none) ∧
    (∀ (fileExists : Nat → Bool) (fuel i : Nat),
      newMPVSocketWait (fun _ => true) fileExists (fuel + 1) i = some WaitResult.ctxCancel) := by
  have hto : ¬ (socketTimeoutMs ≤ 0) := by decide
  refine ⟨?_, ?_, ?_⟩
  · intro ctxDone fileExists fuel
    induction fuel with
    | zero => intro i; simp [newMPVSocketWait]
    | succ n ih =>
      intro i
      unfold newMPVSocketWait
      by_cases hc : ctxDone i
      · simp [hc]
      · by_cases hf : fileExists i
        · simp [hc, hto, hf]
        · simpa [hc, hto, hf] using ih (i + 1)
  · intro fuel
    induction fuel with
    | zero => intro i; simp [newMPVSocketWait]
    | succ n ih =>
      intro i
      unfold newMPVSocketWait
      simpa [hto] using ih (i + 1)
  · intro fileExists fuel i
    simp [newMPVSocketWait]

/-- Witness for C1: after 1000 iterations with no socket file and no
cancellation, the loop has still produced no result at all. -/
theorem newMPVSocketWait_never_times_out_witness :
    newMPVSocketWait (fun _ => false) (fun _ => false) 1000 0 = none :=
  newMPVSocketWait_never_times_out.2.1 1000 0

/-- C6: every call of the socket backend's `Play(url)` issues the unpause
command first; on unpause failure the load command is not issued and the
unpause error is returned; on unpause success the load/replace command
follows, in that order. -/
theorem mpvPlay_unpause_first (ipc : IpcOracle) (url : String) :
    ((MpvSocket.Play ipc url).1.head? = some mpvUnpauseCmd) ∧
    (∀ e, ipc mpvUnpauseCmd = Except.error e →
      MpvSocket.Play ipc url = ([mpvUnpauseCmd], some e)) ∧
    (∀ d, ipc mpvUnpauseCmd = Except.ok d →
      (MpvSocket.Play ipc url).1 = [mpvUnpauseCmd, mpvPlayCmd url]) := by
  refine ⟨?_, ?_, ?_⟩
  · unfold MpvSocket.Play MpvSocket.Pause
    cases hu : ipc mpvUnpauseCmd with
    | error e => simp [hu]
    | ok d =>
      cases hp : ipc (mpvPlayCmd url) with
      | error e => simp [hu, hp]
      | ok d2 => simp [hu, hp]
  · intro e hu
    unfold MpvSocket.Play MpvSocket.Pause
    simp [hu]
  · intro d hu
    unfold MpvSocket.Play MpvSocket.Pause
    cases hp : ipc (mpvPlayCmd url) with
    | error e => simp [hu, hp]
    | ok d2 => simp [hu, hp]

/-- An IPC oracle on which the unpause command fails. -/
def ipcFailUnpause : IpcOracle :=
  fun c => if c = mpvUnpauseCmd then Except.error (("boom").toList) else Except.ok none

/-- Witness for C6: on an oracle failing the unpause command, `Play` issues
only the unpause command and returns its error. -/
theorem mpvPlay_unpause_first_witness :
    MpvSocket.Play ipcFailUnpause "some-url" = ([mpvUnpauseCmd], some (("boom").toList)) :=
  (mpvPlay_unpause_first ipcFailUnpause "some-url").2.1 (("boom").toList)
    (by simp [ipcFailUnpause])

/-- C9: the socket backend's `Close` attempts the quit command first and
closes the connection after; a quit error is always the returned error
(never masked by a close failure), and the connection-close error is
returned exactly when the quit command succeeded and a connection was
present. -/
theorem mpvClose_no_masking (q : Option (List Char)) (conn : Bool) (c : Option (List Char)) :
    ((MpvSocket.Close q conn c).1.head? = some MpvSocket.CloseEvent.quitCmd) ∧
    (∀ e, q = some e → (MpvSocket.Close q conn c).2 = some e) ∧
    (q = none → conn = true → (MpvSocket.Close q conn c).2 = c) ∧
    (MpvSocket.CloseEvent.connClose ∈ (MpvSocket.Close q conn c).1 →
      conn = true ∧ (MpvSocket.Close q conn c).1 =
        [MpvSocket.CloseEvent.quitCmd, MpvSocket.CloseEvent.connClose]) := by
  cases conn <;> cases c <;> cases q <;> simp [MpvSocket.Close]

/-- Witness for C9: with a failing quit command, a present connection and a
failing connection close, the quit error is the one returned. -/
theorem mpvClose_no_masking_witness :
    (MpvSocket.Close (some (("quit failed").toList)) true (some (("close failed").toList))).2 =
      some (("quit failed").toList) :=
  (mpvClose_no_masking (some (("quit failed").toList)) true (some (("close failed").toList))).2.1
    (("quit failed").toList) rfl

/-- The clamped volume the socket backend sends and returns. -/
theorem mpvSetVolume_fst (ipc : IpcOracle) (value : Int) :
    (MpvSocket.SetVolume ipc value).1 =
      if value < 0 then 0 else if value > 100 then 100 else value := by
  unfold MpvSocket.SetVolume
  dsimp only
  rcases hx : ipc (mpvVolumeCmd (if value < 0 then 0 else if value > 100 then 100 else value))
    with e | d <;> simp [hx]

/-- C2 counterexample: on the scrape backend, `SetVolume(-5)` in the idle
state returns `-5` — outside `[0,100]`, so not the clamped value. -/
theorem setVolume_unclamped_cex :
    (FFPlay.SetVolume (-5) ffInitial).2 = -5 ∧
    ¬ (0 ≤ (FFPlay.SetVolume (-5) ffInitial).2) := by decide

/-- C2 corrected: only the socket backend clamps — `MpvSocket.SetVolume`
always returns the input clamped to `[0,100]`; the scrape backend's
`SetVolume` performs no clamping, returning the stored volume, which is
the raw input when idle and the previous volume while playing. -/
theorem setVolume_clamping_amended :
    (∀ (ipc : IpcOracle) (value : Int),
      0 ≤ (MpvSocket.SetVolume ipc value).1 ∧ (MpvSocket.SetVolume ipc value).1 ≤ 100) ∧
    (∀ (ipc : IpcOracle) (value : Int), 0 ≤ value → value ≤ 100 →
      (MpvSocket.SetVolume ipc value).1 = value) ∧
    (∀ (ipc : IpcOracle) (value : Int), value < 0 →
      (MpvSocket.SetVolume ipc value).1 = 0) ∧
    (∀ (ipc : IpcOracle) (value : Int), 100 < value →
      (MpvSocket.SetVolume ipc value).1 = 100) ∧
    (∀ (value : Int) (s : FFPlayState),
      (FFPlay.SetVolume value s).2 = if s.playing.isNone then value else s.volume) := by
  refine ⟨?_, ?_, ?_, ?_, ?_⟩
  · intro ipc value
    rw [mpvSetVolume_fst]
    split_ifs <;> omega
  · intro ipc value h0 h100
    rw [mpvSetVolume_fst]
    split_ifs <;> omega
  · intro ipc value h
    rw [mpvSetVolume_fst]
    rw [if_pos h]
  · intro ipc value h
    rw [mpvSetVolume_fst]
    split_ifs <;> omega
  · intro value s
    by_cases h : s.playing.isNone <;> simp [FFPlay.SetVolume, h]

/-- An IPC oracle on which every command succeeds. -/
def ipcOk : IpcOracle := fun _ => Except.ok none

/-- Witness for the corrected C2: the socket backend maps 150 to 100,
and the scrape backend passes -5 through unclamped when idle. -/
theorem setVolume_clamping_amended_witness :
    (MpvSocket.SetVolume ipcOk 150).1 = 100 ∧
    (FFPlay.SetVolume (-5) ffInitial).2 = if ffInitial.playing.isNone then -5 else ffInitial.volume :=
  ⟨setVolume_clamping_amended.2.2.2.1 ipcOk 150 (by decide),
   setVolume_clamping_amended.2.2.2.2 (-5) ffInitial⟩

/-- A scrape-backend state with a running process and stored volume 50. -/
def c3PlayingState : FFPlayState :=
  { url := ("u").toList, playing := some [], volume := 50 }

/-- C3 counterexample: with a process playing and stored volume 50,
`SetVolume(80)` does not store 80 and does not return 80 — it returns 50
and leaves the stored volume at 50. -/
theorem ffSetVolume_while_playing_cex :
    (FFPlay.SetVolume 80 c3PlayingState).2 = 50 ∧
    (FFPlay.SetVolume 80 c3PlayingState).1.volume = 50 ∧
    (FFPlay.SetVolume 80 c3PlayingState).2 ≠ 80 := by decide

/-- C3 corrected: while a process is playing, the scrape backend's
`SetVolume(v)` ignores `v` entirely: the state — including the stored
volume — is unchanged and the previously stored volume is returned; the
input is stored only when no process is playing. -/
theorem ffSetVolume_while_playing_amended (value : Int) (s : FFPlayState)
    (h : s.playing.isSome) :
    FFPlay.SetVolume value s = (s, s.volume) := by
  have hn : s.playing.isNone = false := by
    cases hp : s.playing with
    | none => rw [hp] at h; simp at h
    | some b => simp
  simp [FFPlay.SetVolume, hn]

/-- Witness for the corrected C3, at the concrete playing state. -/
theorem ffSetVolume_while_playing_amended_witness :
    FFPlay.SetVolume 80 c3PlayingState = (c3PlayingState, c3PlayingState.volume) :=
  ffSetVolume_while_playing_amended 80 c3PlayingState (by decide)

/-- C8: `Pause(false)` on the scrape backend with no prior URL is a no-op:
no event is produced (no process started), the state is unchanged, and no
error is returned. -/
theorem ffPause_noop_before_play (env : FFEnv) (now : Int) (s : FFPlayState)
    (h : s.url = []) :
    FFPlay.Pause env now false s = (s, [], none) := by
  simp [FFPlay.Pause, h]

/-- Witness for C8 at the freshly constructed backend state. -/
theorem ffPause_noop_before_play_witness :
    FFPlay.Pause {} 12345 false ffInitial = (ffInitial, [], none) :=
  ffPause_noop_before_play {} 12345 ffInitial rfl

/-- C10: whenever no engine process is running — in the initial state,
after `Stop`, or after `Pause(true)` (which terminates the process and
clears the handle) — the scrape backend's `Metadata()` returns nil, so no
title, playback time or stream error is observable. -/
theorem ffMetadata_none_when_not_playing :
    (∀ (now : Int) (s : FFPlayState), s.playing = none → FFPlay.Metadata now s = none) ∧
    (∀ now : Int, FFPlay.Metadata now ffInitial = none) ∧
    (∀ (env : FFEnv) (now : Int) (s : FFPlayState),
      ((FFPlay.Stop env s).1).playing = none ∧
      FFPlay.Metadata now (FFPlay.Stop env s).1 = none) ∧
    (∀ (env : FFEnv) (now now2 : Int) (s : FFPlayState),
      ((FFPlay.Pause env now true s).1).playing = none ∧
      FFPlay.Metadata now2 (FFPlay.Pause env now true s).1 = none) := by
  have hmeta : ∀ (now : Int) (s : FFPlayState), s.playing = none →
      FFPlay.Metadata now s = none := by
    intro now s h
    simp [FFPlay.Metadata, h]
  have hstop : ∀ (env : FFEnv) (s : FFPlayState), ((FFPlay.stop env s).1).playing = none := by
    intro env s
    cases hp : s.playing with
    | none => simp [FFPlay.stop, hp]
    | some b => simp [FFPlay.stop, hp]
  have hpause : ∀ (env : FFEnv) (now : Int) (s : FFPlayState),
      ((FFPlay.Pause env now true s).1).playing = none := by
    intro env now s
    unfold FFPlay.Pause
    simp only [if_true]
    rcases hst : FFPlay.stop env s with ⟨s1, ev, err⟩
    have h1 : s1.playing = none := by
      have h2 := hstop env s
      rw [hst] at h2
      exact h2
    cases err <;> simp [h1]
  refine ⟨hmeta, fun now => hmeta now ffInitial rfl, ?_, ?_⟩
  · intro env now s
    exact ⟨hstop env s, hmeta now _ (hstop env s)⟩
  · intro env now now2 s
    exact ⟨hpause env now s, hmeta now2 _ (hpause env now s)⟩

/-- Witness for C10: after pausing the freshly constructed backend,
`Metadata` observes nothing. -/
theorem ffMetadata_none_when_not_playing_witness :
    FFPlay.Metadata 2 (FFPlay.Pause {} 1 true ffInitial).1 = none :=
  (ffMetadata_none_when_not_playing.2.2.2 {} 1 2 ffInitial).2

/-- C7: the playback clock — `reset` clears the accumulator and starts the
timestamp at call time; `pause` adds `now - startTimestamp` into the
accumulator and clears the timestamp; `resume` sets the timestamp to `now`
without touching the accumulator; `elapsed` returns the accumulator plus
the running interval (when the timestamp is set), truncated to whole
seconds; and on the round trip reset / run 2s / pause / resume / run 1s
the elapsed time is exactly 3 seconds, however long the paused gap was. -/
theorem playClock_spec :
    (∀ (now : Int) (s : PlayTimeState),
      resetPlayTime now s = { playedTime := none, playStartTime := now }) ∧
    (∀ (now : Int) (s : PlayTimeState),
      pausePlayTime now s =
        { playedTime := some (s.playedTime.getD 0 + (now - s.playStartTime)),
          playStartTime := 0 }) ∧
    (∀ (now : Int) (s : PlayTimeState),
      (resumePlayTime now s).playedTime = s.playedTime ∧
      (resumePlayTime now s).playStartTime = now) ∧
    (∀ (now : Int) (s : PlayTimeState),
      getPlayTime now s =
        Int.tdiv (s.playedTime.getD 0 +
          (if s.playStartTime = 0 then 0 else now - s.playStartTime)) nsPerSec) ∧
    (∀ (t0 gap : Int) (s : PlayTimeState), 0 < t0 → 0 ≤ gap →
      getPlayTime (t0 + 2 * nsPerSec + gap + 1 * nsPerSec)
        (resumePlayTime (t0 + 2 * nsPerSec + gap)
          (pausePlayTime (t0 + 2 * nsPerSec)
            (resetPlayTime t0 s))) = 3) := by
  have key : ∀ a b : Int, a = 2 * nsPerSec → b = nsPerSec → Int.tdiv (a + b) nsPerSec = 3 := by
    intro a b ha hb
    subst ha
    subst hb
    decide
  refine ⟨fun now s => rfl, ?_, fun now s => ⟨rfl, rfl⟩, ?_, ?_⟩
  · intro now s
    cases h : s.playedTime <;> simp [pausePlayTime, h]
  · intro now s
    cases h : s.playedTime <;> simp [getPlayTime, h]
  · intro t0 gap s ht hg
    have hne : ¬ (t0 + 2 * nsPerSec + gap = 0) := by
      simp only [nsPerSec]
      omega
    dsimp only [resetPlayTime, pausePlayTime, resumePlayTime, getPlayTime]
    rw [if_neg hne]
    apply key <;> simp only [nsPerSec] <;> ring

/-- Witness for C7: the round trip at `t0 = 5` with a 7 ns paused gap
reports 3 elapsed seconds. -/
theorem playClock_spec_witness :
    getPlayTime (5 + 2 * nsPerSec + 7 + 1 * nsPerSec)
      (resumePlayTime (5 + 2 * nsPerSec + 7)
        (pausePlayTime (5 + 2 * nsPerSec)
          (resetPlayTime 5 {}))) = 3 :=
  playClock_spec.2.2.2.2 5 7 {} (by decide) (by decide)

end SonicRadio
